import Mathlib

/-!
Verification of the anonymous-confession service (`server.ts`) and its
presentation client (`App.tsx`), shallowly embedded in Lean.

JavaScript strings are modelled as `String` (or `List Char` where the code
walks the text character by character); JSON fields that may be absent are
`Option`; the SQLite `confessions` table is a list of rows together with the
autoincrement counter; timestamps are abstract `Nat` instants supplied by the
caller.  JavaScript falsiness of the values that actually flow through the
handlers (`undefined`, the empty string, the number 0) is modelled by the
explicit `js*` helpers below.
-/

/-- A row of the local `confessions` table (see the `CREATE TABLE` statement
and the column migrations in `server.ts`). -/
structure Confession where
  id : Nat
  content : String
  category : String
  recipient : Option String
  sender : Option String
  feeling : Option String
  song : Option String
  timestamp : Nat
  likes : Nat
deriving DecidableEq, Repr

/-- The local store: the table rows plus the `AUTOINCREMENT` counter that
yields the next `id`. -/
structure Store where
  rows : List Confession
  nextId : Nat
deriving DecidableEq, Repr

/-- Models the JavaScript expression `v || dflt` for an optional string `v`:
`undefined` and `""` are falsy, any other string is itself. -/
def jsOrString (v : Option String) (dflt : String) : String :=
  match v with
  | none => dflt
  | some s => if s = "" then dflt else s

/-- Models the JavaScript expression `v || null` for an optional string `v`:
an absent or empty string becomes `null` (here `none`). -/
def jsOrNull (v : Option String) : Option String :=
  match v with
  | none => none
  | some s => if s = "" then none else some s

/-- The JSON body of `POST /api/confessions`. -/
structure CreateReq where
  content : Option String
  category : Option String
  recipient : Option String
  sender : Option String
  feeling : Option String
  song : Option String
deriving DecidableEq, Repr

/-- Response of `POST /api/confessions`. -/
inductive CreateResp where
  | created (id : Nat)
  | badRequest (error : String)
deriving DecidableEq, Repr

/-- Models the guard `!content || content.length < 5` of the create handler:
an absent `content` is falsy, and the empty string (also falsy) has length
`0 < 5`, so the guard collapses to this test. -/
def contentTooShort (content : Option String) : Bool :=
  match content with
  | none => true
  | some s => s.length < 5

/-- The handler of `POST /api/confessions`: validate, then
`INSERT INTO confessions (content, category, recipient, sender, feeling, song)`
with `category || "General"` and `field || null` defaulting; the store assigns
`id` (autoincrement) and `timestamp` (the current instant `now`) and `likes`
defaults to `0`. -/
def createConfession (st : Store) (now : Nat) (r : CreateReq) :
    CreateResp × Store :=
  if contentTooShort r.content then
    (.badRequest "Confession too short", st)
  else
    let row : Confession :=
      { id := st.nextId
        content := r.content.getD ""
        category := jsOrString r.category "General"
        recipient := jsOrNull r.recipient
        sender := jsOrNull r.sender
        feeling := jsOrNull r.feeling
        song := jsOrNull r.song
        timestamp := now
        likes := 0 }
    (.created st.nextId, { rows := st.rows ++ [row], nextId := st.nextId + 1 })

/-- Response of `POST /api/confessions/:id/like`: `res.json({ success: true })`. -/
structure LikeResp where
  success : Bool
deriving DecidableEq, Repr

/-- The handler of `POST /api/confessions/:id/like`:
`UPDATE confessions SET likes = likes + 1 WHERE id = ?`, then
`{ success: true }` unconditionally. -/
def likeConfession (st : Store) (id : Nat) : LikeResp × Store :=
  ({ success := true },
   { st with
     rows := st.rows.map fun c =>
       if c.id = id then { c with likes := c.likes + 1 } else c })

/-- The `ORDER BY timestamp DESC` order: `a` comes no later than `b` when its
timestamp is at least `b`'s. -/
def byRecency (a b : Confession) : Prop :=
  b.timestamp ≤ a.timestamp

instance : DecidableRel byRecency := fun a b => Nat.decLe b.timestamp a.timestamp

instance : IsTotal Confession byRecency :=
  ⟨fun a b => Nat.le_total b.timestamp a.timestamp⟩

instance : IsTrans Confession byRecency :=
  ⟨fun _ _ _ hab hbc => Nat.le_trans hbc hab⟩

/-- The handler of `GET /api/confessions`:
`SELECT * FROM confessions ORDER BY timestamp DESC LIMIT 50`. -/
def listConfessions (st : Store) : List Confession :=
  (List.insertionSort byRecency st.rows).take 50

/-- The client-side category filter of `App.tsx`:
`filter === 'All' ? confessions : confessions.filter(c => c.category === filter)`. -/
def filteredConfessions (filter : String) (confessions : List Confession) :
    List Confession :=
  if filter = "All" then confessions
  else confessions.filter fun c => c.category == filter

/-! ### Word highlighting (`HighlightedText` in `App.tsx`) -/

/-- The characters matched by the JavaScript regex class `\s` on the code
points this application actually handles (ASCII whitespace and the no-break
space). -/
def jsWhitespace (c : Char) : Bool :=
  c == ' ' || c == '\t' || c == '\n' || c == '\r' || c == '\x0b' ||
    c == '\x0c' || c == '\u00A0'

/-- Worker of the tokenizer `text.split(/(\s+)/)`.  `cur` is the current
token read so far (reversed), `inWs` tells whether `cur` is a whitespace run.
Like the JavaScript split with a capturing group, maximal whitespace runs
appear as their own tokens and an empty piece is produced at either end when
the text starts or ends with whitespace. -/
def splitAux : List Char → Bool → List Char → List (List Char)
  | cur, inWs, [] => if inWs then [cur.reverse, []] else [cur.reverse]
  | cur, inWs, c :: cs =>
    if jsWhitespace c = inWs then splitAux (c :: cur) inWs cs
    else cur.reverse :: splitAux [c] (jsWhitespace c) cs

/-- `text.split(/(\s+)/)`: the token list of the highlighter. -/
def tokenizeWs (text : List Char) : List (List Char) :=
  splitAux [] false text

/-- The keyword-to-class table `SPECIAL_WORDS` of `App.tsx`, verbatim. -/
def SPECIAL_WORDS : List (String × String) :=
  [("love", "text-pink-500 font-bold drop-shadow-sm"),
   ("crush", "text-rose-400 font-bold italic"),
   ("heart", "text-red-500 animate-pulse"),
   ("forever", "text-indigo-400 italic underline decoration-wavy"),
   ("miss", "text-blue-400"),
   ("beautiful", "text-amber-500 font-serif italic"),
   ("cute", "text-pink-300"),
   ("smile", "text-yellow-500"),
   ("asiet", "text-romantic-gold font-bold tracking-widest uppercase"),
   ("secret", "bg-romantic-ink text-white px-1 rounded"),
   ("dream", "text-purple-400 italic")]

/-- The characters of the regex class `[.,!?;:]` used by the highlighter. -/
def punctChar (c : Char) : Bool :=
  c == '.' || c == ',' || c == '!' || c == '?' || c == ';' || c == ':'

/-- The lookup key of a token:
`word.toLowerCase().replace(/[.,!?;:]/g, '')` — lowercase the token, then
delete every occurrence (not only trailing ones) of the six punctuation
characters. -/
def cleanWordKey (w : List Char) : String :=
  ((w.map Char.toLower).filter fun c => !punctChar c).asString

/-- One token of the highlighter's output: the token text as rendered (always
the original word) and the CSS class attached to it, if any.
`if (SPECIAL_WORDS[cleanWord])` is a JavaScript truthiness test: a missing
key (`undefined`) and an empty class string are both falsy. -/
def renderToken (w : List Char) : List Char × Option String :=
  match SPECIAL_WORDS.lookup (cleanWordKey w) with
  | some cls => if cls = "" then (w, none) else (w, some cls)
  | none => (w, none)

/-- The full output of `HighlightedText` for a message text: the tokens in
order, each with its optional styling class. -/
def highlightedText (text : List Char) : List (List Char × Option String) :=
  (tokenizeWs text).map renderToken

/-- Modelled from the spec: the lookup key described by the specification,
obtained by stripping TRAILING punctuation from the token and lowercasing.
This is the spec-side counterpart of `cleanWordKey`, used to compare the two
key computations. -/
def specKeyTrailingStrip (w : List Char) : String :=
  (((w.reverse.dropWhile punctChar).reverse).map Char.toLower).asString

/-! ### Song rendering (`SpotifyPlayer` in `App.tsx`) -/

/-- The regex class `[a-zA-Z0-9]`. -/
def alnumChar (c : Char) : Bool :=
  ('a' ≤ c && c ≤ 'z') || ('A' ≤ c && c ≤ 'Z') || ('0' ≤ c && c ≤ '9')

/-- The literal head of the pattern
`https:\/\/open\.spotify\.com\/(track|album|playlist)\/`. -/
def spotifyLit : List Char :=
  "https://open.spotify.com/".data

/-- The three alternatives of the resource-type group, in regex order. -/
def resourceTypes : List (List Char) :=
  ["track".data, "album".data, "playlist".data]

/-- Strip the literal `lit` from the front of `cs`; `none` when `cs` does not
start with `lit`. -/
def stripLit : List Char → List Char → Option (List Char)
  | [], cs => some cs
  | _ :: _, [] => none
  | l :: ls, c :: cs => if c = l then stripLit ls cs else none

/-- Try the resource-type alternatives in order against `rest` (the text
after the literal head): on `t ++ "/"` followed by at least one alphanumeric
character, capture the maximal alphanumeric run as the resource id. -/
def matchType : List (List Char) → List Char → Option (List Char × List Char)
  | [], _ => none
  | t :: ts, rest =>
    match stripLit (t ++ [ '/' ]) rest with
    | some rest2 =>
      if (rest2.takeWhile alnumChar).isEmpty then matchType ts rest
      else some (t, rest2.takeWhile alnumChar)
    | none => matchType ts rest

/-- Try the whole pattern anchored at the start of `cs`. -/
def matchHere (cs : List Char) : Option (List Char × List Char) :=
  match stripLit spotifyLit cs with
  | some rest => matchType resourceTypes rest
  | none => none

/-- `song.match(spotifyRegex)`: scan left to right for the first position
where the (unanchored) pattern matches, returning the captured resource type
and id. -/
def findSpotify : List Char → Option (List Char × List Char)
  | [] => none
  | c :: cs =>
    match matchHere (c :: cs) with
    | some r => some r
    | none => findSpotify cs

/-- The two renderings `SpotifyPlayer` can choose. -/
inductive SongRender where
  | embed (resType id : String)
  | searchLink
deriving DecidableEq, Repr

/-- The classification performed by `SpotifyPlayer`: the embedded player when
the regex matches, the search link otherwise. -/
def renderSong (song : String) : SongRender :=
  match findSpotify song.data with
  | some (t, i) => .embed t.asString i.asString
  | none => .searchLink

/-- The song text contains an occurrence of the external link pattern for a
track, album or playlist resource: it decomposes around the literal
`https://open.spotify.com/`, one of the three resource types, a slash, and a
nonempty alphanumeric id. -/
def containsSpotifyLink (cs : List Char) : Prop :=
  ∃ pre t idr post,
    cs = pre ++ spotifyLit ++ t ++ [ '/' ] ++ idr ++ post ∧
      t ∈ resourceTypes ∧ idr ≠ [] ∧ (∀ c ∈ idr, alnumChar c = true)

/-! ### The Supabase mirror endpoints (`/api/supabase/...` in `server.ts`) -/

/-- A row of the external `Confession` table: `id`, a `Confession` text
column and a `Like` counter column. -/
structure MirrorRecord where
  id : Nat
  Confession : String
  Like : Int
deriving DecidableEq, Repr

/-- The two environment variables read by `getSupabase`. -/
structure SupabaseEnv where
  url : Option String
  key : Option String
deriving DecidableEq, Repr

/-- JavaScript truthiness of an environment variable: present and nonempty. -/
def jsTruthyStr (v : Option String) : Bool :=
  match v with
  | none => false
  | some s => !(s == "")

/-- `getSupabase` yields a client exactly when `url && key` is truthy. -/
def supabaseConfigured (env : SupabaseEnv) : Bool :=
  jsTruthyStr env.url && jsTruthyStr env.key

/-- The `{ data, error }` result that the external SDK returns for a
`select`: mutually exclusive in practice, both carried here as the handler
reads both fields. -/
structure UpstreamSelect where
  data : Option (List MirrorRecord)
  error : Option String
deriving DecidableEq, Repr

/-- Responses of `GET /api/supabase/messages`. -/
inductive MessagesResp where
  | ok (data : List MirrorRecord)
  | badRequest (error : String) (hint : String)
  | unavailable (error : String)
deriving DecidableEq, Repr

/-- The handler of `GET /api/supabase/messages`: 503 when the client is not
configured, 400 with the upstream message plus a fixed hint when the SDK
reports an error, otherwise 200 with `data || []`. -/
def getSupabaseMessages (env : SupabaseEnv) (upstream : UpstreamSelect) :
    MessagesResp :=
  if !supabaseConfigured env then
    .unavailable "Supabase credentials missing in Secrets tab"
  else
    match upstream.error with
    | some msg =>
      .badRequest msg
        "Check if table \"Confession\" exists with columns \"Confession\" and \"Like\""
    | none => .ok (upstream.data.getD [])

/-- Models `currentLikes || 0`: `undefined` and the number 0 are falsy. -/
def jsOrZero (v : Option Int) : Int :=
  match v with
  | none => 0
  | some n => if n = 0 then 0 else n

/-- The write performed by `POST /api/supabase/messages/:id/like`:
`update({ Like: (currentLikes || 0) + 1 }).eq('id', id)` — an absolute write
of the caller-computed value to every row whose `id` matches; the stored
`Like` value is never read. -/
def supabaseLikeUpdate (rows : List MirrorRecord) (id : Nat)
    (currentLikes : Option Int) : List MirrorRecord :=
  rows.map fun r =>
    if r.id = id then { r with Like := jsOrZero currentLikes + 1 } else r

/-! ## Theorems -/

/-- C1: a create request whose content is absent or shorter than 5
characters fails with the 400 validation error and leaves the store
untouched; any other create request attempts the insert, appending exactly
one row (carrying the supplied content) and returning the assigned id. -/
theorem create_validation_spec (st : Store) (now : Nat) (r : CreateReq) :
    ((r.content = none ∨ ∃ c, r.content = some c ∧ c.length < 5) →
        (createConfession st now r).1 = .badRequest "Confession too short" ∧
          (createConfession st now r).2 = st) ∧
    (∀ c, r.content = some c → 5 ≤ c.length →
        (createConfession st now r).1 = .created st.nextId ∧
          ∃ row : Confession,
            (createConfession st now r).2.rows = st.rows ++ [row] ∧
              row.content = c) := by
  constructor
  · rintro (hnone | ⟨c, hc, hlen⟩)
    · simp [createConfession, contentTooShort, hnone]
    · simp [createConfession, contentTooShort, hc, hlen]
  · intro c hc hlen
    have hshort : contentTooShort (some c) = false := by
      simp [contentTooShort, Nat.not_lt.mpr hlen]
    refine ⟨?_, ?_⟩
    · simp [createConfession, hc, hshort]
    · refine ⟨{ id := st.nextId, content := c,
                category := jsOrString r.category "General",
                recipient := jsOrNull r.recipient, sender := jsOrNull r.sender,
                feeling := jsOrNull r.feeling, song := jsOrNull r.song,
                timestamp := now, likes := 0 }, ?_, rfl⟩
      simp [createConfession, hc, hshort]

/-- Closed instance of `create_validation_spec`: a 3-character confession is
rejected with the store untouched, and a 5-character one is inserted. -/
theorem create_validation_spec_witness :
    ((createConfession ⟨[], 1⟩ 7 ⟨some "hey", none, none, none, none, none⟩).1 =
        .badRequest "Confession too short" ∧
      (createConfession ⟨[], 1⟩ 7 ⟨some "hey", none, none, none, none, none⟩).2 =
        ⟨[], 1⟩) ∧
    ((createConfession ⟨[], 1⟩ 7 ⟨some "hello", none, none, none, none, none⟩).1 =
        .created 1 ∧
      ∃ row : Confession,
        (createConfession ⟨[], 1⟩ 7
            ⟨some "hello", none, none, none, none, none⟩).2.rows = [] ++ [row] ∧
          row.content = "hello") :=
  ⟨(create_validation_spec ⟨[], 1⟩ 7 ⟨some "hey", none, none, none, none, none⟩).1
      (Or.inr ⟨"hey", rfl, by decide⟩),
   (create_validation_spec ⟨[], 1⟩ 7 ⟨some "hello", none, none, none, none, none⟩).2
      "hello" rfl (by decide)⟩

/-- C2: liking id `id` returns `{success := true}`, keeps the row count and
the autoincrement counter, bumps the likes of exactly the rows whose id
matches (leaving all their other fields intact), leaves all other rows
unchanged, and is a complete no-op on the store when no row carries the id. -/
theorem like_frame_spec (st : Store) (id : Nat) :
    (likeConfession st id).1 = { success := true } ∧
    (likeConfession st id).2.nextId = st.nextId ∧
    (likeConfession st id).2.rows.length = st.rows.length ∧
    (∀ i (h : i < st.rows.length) (h' : i < (likeConfession st id).2.rows.length),
        (likeConfession st id).2.rows.get ⟨i, h'⟩ =
          if (st.rows.get ⟨i, h⟩).id = id then
            { st.rows.get ⟨i, h⟩ with likes := (st.rows.get ⟨i, h⟩).likes + 1 }
          else st.rows.get ⟨i, h⟩) ∧
    ((∀ c ∈ st.rows, c.id ≠ id) → (likeConfession st id).2 = st) := by
  refine ⟨rfl, rfl, by simp [likeConfession], ?_, ?_⟩
  · intro i h h'
    simp [likeConfession, List.get_eq_getElem]
  · intro hall
    have hrows :
        (st.rows.map fun c =>
          if c.id = id then { c with likes := c.likes + 1 } else c) = st.rows := by
      refine (List.map_congr_left ?_).trans (List.map_id st.rows)
      intro a ha
      simp [hall a ha]
    show ({ st with
      rows := st.rows.map fun c =>
        if c.id = id then { c with likes := c.likes + 1 } else c } : Store) = st
    rw [hrows]

/-- Closed instance of `like_frame_spec` on a two-row store: liking id 1
bumps row 0, leaves row 1 alone, and liking the unknown id 99 is a no-op. -/
theorem like_frame_spec_witness :
    (likeConfession
        ⟨[⟨1, "aaaaa", "General", none, none, none, none, 4, 0⟩,
          ⟨2, "bbbbb", "Love", none, none, none, none, 9, 3⟩], 3⟩ 1).2.rows.get
        ⟨0, by decide⟩ = ⟨1, "aaaaa", "General", none, none, none, none, 4, 1⟩ ∧
    (likeConfession
        ⟨[⟨1, "aaaaa", "General", none, none, none, none, 4, 0⟩,
          ⟨2, "bbbbb", "Love", none, none, none, none, 9, 3⟩], 3⟩ 1).2.rows.get
        ⟨1, by decide⟩ = ⟨2, "bbbbb", "Love", none, none, none, none, 9, 3⟩ ∧
    (likeConfession
        ⟨[⟨1, "aaaaa", "General", none, none, none, none, 4, 0⟩,
          ⟨2, "bbbbb", "Love", none, none, none, none, 9, 3⟩], 3⟩ 99).2 =
      ⟨[⟨1, "aaaaa", "General", none, none, none, none, 4, 0⟩,
        ⟨2, "bbbbb", "Love", none, none, none, none, 9, 3⟩], 3⟩ := by
  refine ⟨?_, ?_, ?_⟩
  · have h := (like_frame_spec
      ⟨[⟨1, "aaaaa", "General", none, none, none, none, 4, 0⟩,
        ⟨2, "bbbbb", "Love", none, none, none, none, 9, 3⟩], 3⟩ 1).2.2.2.1
      0 (by decide) (by decide)
    simpa using h
  · have h := (like_frame_spec
      ⟨[⟨1, "aaaaa", "General", none, none, none, none, 4, 0⟩,
        ⟨2, "bbbbb", "Love", none, none, none, none, 9, 3⟩], 3⟩ 1).2.2.2.1
      1 (by decide) (by decide)
    simpa using h
  · exact (like_frame_spec
      ⟨[⟨1, "aaaaa", "General", none, none, none, none, 4, 0⟩,
        ⟨2, "bbbbb", "Love", none, none, none, none, 9, 3⟩], 3⟩ 99).2.2.2.2
      (by decide)

/-- C3: the list endpoint returns at most 50 rows, in non-increasing
timestamp order (most recent first). -/
theorem list_recent_spec (st : Store) :
    (listConfessions st).length ≤ 50 ∧
    ∀ (i j : Fin (listConfessions st).length), i < j →
      ((listConfessions st).get j).timestamp ≤
        ((listConfessions st).get i).timestamp := by
  constructor
  · simp [listConfessions]
  · intro i j hij
    have hsorted : (List.insertionSort byRecency st.rows).Sorted byRecency :=
      List.sorted_insertionSort byRecency st.rows
    have htake : (listConfessions st).Sorted byRecency :=
      hsorted.sublist (List.take_sublist 50 _)
    exact htake.rel_get_of_lt hij

/-- Closed instance of `list_recent_spec` on a two-row store whose second row
is more recent: the listing is capped at 50 and its second element is no more
recent than its first. -/
theorem list_recent_spec_witness :
    (listConfessions
        ⟨[⟨1, "aaaaa", "General", none, none, none, none, 4, 0⟩,
          ⟨2, "bbbbb", "Love", none, none, none, none, 9, 3⟩], 3⟩).length ≤ 50 ∧
    ((listConfessions
        ⟨[⟨1, "aaaaa", "General", none, none, none, none, 4, 0⟩,
          ⟨2, "bbbbb", "Love", none, none, none, none, 9, 3⟩], 3⟩).get
        ⟨1, by decide⟩).timestamp ≤
      ((listConfessions
        ⟨[⟨1, "aaaaa", "General", none, none, none, none, 4, 0⟩,
          ⟨2, "bbbbb", "Love", none, none, none, none, 9, 3⟩], 3⟩).get
        ⟨0, by decide⟩).timestamp :=
  ⟨(list_recent_spec
      ⟨[⟨1, "aaaaa", "General", none, none, none, none, 4, 0⟩,
        ⟨2, "bbbbb", "Love", none, none, none, none, 9, 3⟩], 3⟩).1,
   (list_recent_spec
      ⟨[⟨1, "aaaaa", "General", none, none, none, none, 4, 0⟩,
        ⟨2, "bbbbb", "Love", none, none, none, none, 9, 3⟩], 3⟩).2
      ⟨0, by decide⟩ ⟨1, by decide⟩ (by decide)⟩

/-- C4: the category filter with value "All" is the identity on the list; any
other value yields exactly the order-preserving subsequence of rows whose
category equals the value (a sublist, all of whose members match, containing
every matching row, of exactly the matching count). -/
theorem filter_category_spec (v : String) (l : List Confession) :
    filteredConfessions "All" l = l ∧
    (v ≠ "All" →
      List.Sublist (filteredConfessions v l) l ∧
      (∀ c ∈ filteredConfessions v l, c.category = v) ∧
      (∀ c ∈ l, c.category = v → c ∈ filteredConfessions v l) ∧
      (filteredConfessions v l).length = l.countP fun c => c.category == v) := by
  refine ⟨by simp [filteredConfessions], ?_⟩
  intro hv
  rw [filteredConfessions, if_neg hv]
  refine ⟨List.filter_sublist l, ?_, ?_, ?_⟩
  · intro c hc
    simpa using (List.mem_filter.mp hc).2
  · intro c hc hcat
    exact List.mem_filter.mpr ⟨hc, by simp [hcat]⟩
  · exact (List.countP_eq_length_filter _ l).symm

/-- Closed instance of `filter_category_spec` at filter value "Love" on a
two-row list. -/
theorem filter_category_spec_witness :
    List.Sublist
      (filteredConfessions "Love"
        [⟨1, "aaaaa", "General", none, none, none, none, 4, 0⟩,
         ⟨2, "bbbbb", "Love", none, none, none, none, 9, 3⟩])
      [⟨1, "aaaaa", "General", none, none, none, none, 4, 0⟩,
       ⟨2, "bbbbb", "Love", none, none, none, none, 9, 3⟩] ∧
    (filteredConfessions "Love"
        [⟨1, "aaaaa", "General", none, none, none, none, 4, 0⟩,
         ⟨2, "bbbbb", "Love", none, none, none, none, 9, 3⟩]).length =
      List.countP (fun c : Confession => c.category == "Love")
        ([⟨1, "aaaaa", "General", none, none, none, none, 4, 0⟩,
          ⟨2, "bbbbb", "Love", none, none, none, none, 9, 3⟩] : List Confession) :=
  ⟨((filter_category_spec "Love"
      [⟨1, "aaaaa", "General", none, none, none, none, 4, 0⟩,
       ⟨2, "bbbbb", "Love", none, none, none, none, 9, 3⟩]).2 (by decide)).1,
   ((filter_category_spec "Love"
      [⟨1, "aaaaa", "General", none, none, none, none, 4, 0⟩,
       ⟨2, "bbbbb", "Love", none, none, none, none, 9, 3⟩]).2 (by decide)).2.2.2⟩

/-- C9: for EVERY create request, each optional field individually supplied
as the empty string behaves exactly like omitting that field (the other
fields being whatever the request carries), and on a valid create the stored
row holds `none` for each optional field supplied empty and `"General"` for
an empty category. -/
theorem empty_optional_fields_spec (st : Store) (now : Nat) (r : CreateReq) :
    (r.category = some "" →
        createConfession st now r =
          createConfession st now { r with category := none }) ∧
    (r.recipient = some "" →
        createConfession st now r =
          createConfession st now { r with recipient := none }) ∧
    (r.sender = some "" →
        createConfession st now r =
          createConfession st now { r with sender := none }) ∧
    (r.feeling = some "" →
        createConfession st now r =
          createConfession st now { r with feeling := none }) ∧
    (r.song = some "" →
        createConfession st now r =
          createConfession st now { r with song := none }) ∧
    (∀ c, r.content = some c → 5 ≤ c.length →
      ∃ row : Confession,
        (createConfession st now r).2.rows = st.rows ++ [row] ∧
        (r.category = some "" → row.category = "General") ∧
        (r.recipient = some "" → row.recipient = none) ∧
        (r.sender = some "" → row.sender = none) ∧
        (r.feeling = some "" → row.feeling = none) ∧
        (r.song = some "" → row.song = none)) := by
  refine ⟨?_, ?_, ?_, ?_, ?_, ?_⟩
  · intro h
    simp [createConfession, jsOrString, h]
  · intro h
    simp [createConfession, jsOrNull, h]
  · intro h
    simp [createConfession, jsOrNull, h]
  · intro h
    simp [createConfession, jsOrNull, h]
  · intro h
    simp [createConfession, jsOrNull, h]
  · intro c hc hlen
    have hshort : contentTooShort r.content = false := by
      rw [hc]
      simp [contentTooShort, Nat.not_lt.mpr hlen]
    refine ⟨{ id := st.nextId, content := r.content.getD "",
              category := jsOrString r.category "General",
              recipient := jsOrNull r.recipient, sender := jsOrNull r.sender,
              feeling := jsOrNull r.feeling, song := jsOrNull r.song,
              timestamp := now, likes := 0 }, ?_, ?_, ?_, ?_, ?_, ?_⟩
    · simp [createConfession, hshort]
    · intro h
      simp [jsOrString, h]
    · intro h
      simp [jsOrNull, h]
    · intro h
      simp [jsOrNull, h]
    · intro h
      simp [jsOrNull, h]
    · intro h
      simp [jsOrNull, h]

/-- Closed instance of `empty_optional_fields_spec` on a MIXED request:
category and recipient empty, sender "Bob", feeling omitted, song nonempty.
The empty category behaves like an omitted one, and the stored row has
`category = "General"`, `recipient = none` while keeping the other supplied
fields. -/
theorem empty_optional_fields_spec_witness :
    createConfession ⟨[], 1⟩ 7
        ⟨some "hello there", some "", some "", some "Bob", none, some "mysong"⟩ =
      createConfession ⟨[], 1⟩ 7
        ⟨some "hello there", none, some "", some "Bob", none, some "mysong"⟩ ∧
    ∃ row : Confession,
      (createConfession ⟨[], 1⟩ 7
          ⟨some "hello there", some "", some "", some "Bob", none,
            some "mysong"⟩).2.rows = [] ++ [row] ∧
        row.category = "General" ∧ row.recipient = none := by
  have h := empty_optional_fields_spec ⟨[], 1⟩ 7
    ⟨some "hello there", some "", some "", some "Bob", none, some "mysong"⟩
  refine ⟨h.1 rfl, ?_⟩
  obtain ⟨row, hrows, hcat, hrec, -, -, -⟩ :=
    h.2.2.2.2.2 "hello there" rfl (by decide)
  exact ⟨row, hrows, hcat rfl, hrec rfl⟩

/-- A rendered token keeps the original word text, styled or not. -/
theorem renderToken_fst (w : List Char) : (renderToken w).1 = w := by
  rw [renderToken]
  cases SPECIAL_WORDS.lookup (cleanWordKey w) with
  | none => rfl
  | some cls =>
    by_cases h : cls = ""
    · simp [h]
    · simp [h]

/-- An association-list lookup succeeds exactly when the key occurs among the
stored keys. -/
theorem lookup_isSome_iff_keys (l : List (String × String)) (k : String) :
    (l.lookup k).isSome = true ↔ k ∈ l.map Prod.fst := by
  induction l with
  | nil => simp [List.lookup]
  | cons p t ih =>
    obtain ⟨a, b⟩ := p
    by_cases h : k = a
    · subst h
      simp [List.lookup]
    · have hba : (k == a) = false := beq_eq_false_iff_ne.mpr h
      simp [List.lookup, hba, ih, h]

/-- A successful association-list lookup returns one of the stored values. -/
theorem lookup_mem_values (l : List (String × String)) (k v : String)
    (h : l.lookup k = some v) : v ∈ l.map Prod.snd := by
  induction l with
  | nil => simp [List.lookup] at h
  | cons p t ih =>
    obtain ⟨a, b⟩ := p
    cases hka : k == a
    · simp only [List.lookup, hka] at h
      simp [ih h]
    · simp only [List.lookup, hka] at h
      obtain rfl : b = v := by injection h
      simp

/-- Every styling class in the keyword table is nonempty (hence truthy). -/
theorem special_values_ne_empty : ∀ v ∈ SPECIAL_WORDS.map Prod.snd, v ≠ "" := by
  decide

/-- C5, counterexample: the one-token message "lo,ve" is styled by the code
(its key after GLOBAL punctuation removal is "love"), yet the key obtained by
stripping only trailing punctuation, "lo,ve", is not in the keyword set — so
the claim's lookup-key description contradicts the code. -/
theorem highlight_trailing_key_counterexample :
    highlightedText "lo,ve".data =
      [("lo,ve".data, some "text-pink-500 font-bold drop-shadow-sm")] ∧
    specKeyTrailingStrip "lo,ve".data = "lo,ve" ∧
    "lo,ve" ∉ SPECIAL_WORDS.map Prod.fst := by
  decide

/-- C5, amended: the highlighter tokenizes on whitespace keeping whitespace
tokens, keeps every token's text unchanged, computes the lookup key by
lowercasing and deleting EVERY occurrence of the punctuation characters
`.,!?;:`, styles a token exactly when that key is in the keyword set, and the
styling decision depends only on the token's lowercasing (so keyword tokens
are styled regardless of letter case). -/
theorem highlight_amended_spec (text : List Char) :
    (highlightedText text).map Prod.fst = tokenizeWs text ∧
    (∀ p ∈ highlightedText text,
        (p.2 ≠ none ↔ cleanWordKey p.1 ∈ SPECIAL_WORDS.map Prod.fst)) ∧
    (∀ w₁ w₂ : List Char, w₁.map Char.toLower = w₂.map Char.toLower →
        (renderToken w₁).2 = (renderToken w₂).2) := by
  refine ⟨?_, ?_, ?_⟩
  · rw [highlightedText, List.map_map]
    exact (List.map_congr_left fun w _ => renderToken_fst w).trans
      (List.map_id _)
  · intro p hp
    rw [highlightedText] at hp
    obtain ⟨w, hw, rfl⟩ := List.mem_map.mp hp
    rw [renderToken_fst]
    cases hl : SPECIAL_WORDS.lookup (cleanWordKey w) with
    | none =>
      have hnot : cleanWordKey w ∉ SPECIAL_WORDS.map Prod.fst := by
        rw [← lookup_isSome_iff_keys]
        simp [hl]
      simp [renderToken, hl, hnot]
    | some cls =>
      have hmem : cleanWordKey w ∈ SPECIAL_WORDS.map Prod.fst :=
        (lookup_isSome_iff_keys _ _).mp (by simp [hl])
      have hne : cls ≠ "" :=
        special_values_ne_empty cls (lookup_mem_values _ _ _ hl)
      simp [renderToken, hl, hne, hmem]
  · intro w₁ w₂ h
    have hkey : cleanWordKey w₁ = cleanWordKey w₂ := by
      rw [cleanWordKey, cleanWordKey, h]
    rw [renderToken, renderToken, hkey]
    cases SPECIAL_WORDS.lookup (cleanWordKey w₂) with
    | none => rfl
    | some cls =>
      by_cases hc : cls = "" <;> simp [hc]

/-- Closed instance of `highlight_amended_spec`: the token "Love." is styled
(its key is "love", a keyword), and "LOVE" and "love" receive the same
styling. -/
theorem highlight_amended_spec_witness :
    ((("Love.".data : List Char),
        (some "text-pink-500 font-bold drop-shadow-sm" : Option String)).2 ≠ none ↔
      cleanWordKey (("Love.".data : List Char),
        (some "text-pink-500 font-bold drop-shadow-sm" : Option String)).1 ∈
          SPECIAL_WORDS.map Prod.fst) ∧
    (renderToken "LOVE".data).2 = (renderToken "love".data).2 :=
  ⟨(highlight_amended_spec "Love.".data).2.1
      ("Love.".data, some "text-pink-500 font-bold drop-shadow-sm") (by decide),
   (highlight_amended_spec []).2.2 "LOVE".data "love".data (by decide)⟩

/-- The token lists of `splitAux` always concatenate back to the input. -/
theorem splitAux_flatten (cs : List Char) :
    ∀ (cur : List Char) (inWs : Bool),
      (splitAux cur inWs cs).flatten = cur.reverse ++ cs := by
  induction cs with
  | nil =>
    intro cur inWs
    cases inWs <;> simp [splitAux]
  | cons c cs ih =>
    intro cur inWs
    by_cases h : jsWhitespace c = inWs
    · rw [splitAux, if_pos h, ih]
      simp
    · rw [splitAux, if_neg h]
      simp [ih]

/-- C10: the concatenation of the tokens emitted by the highlighter is the
input text, character for character — the highlighter never inserts, deletes
or alters text, whitespace included. -/
theorem highlight_concat_spec (text : List Char) :
    ((highlightedText text).map Prod.fst).flatten = text := by
  rw [highlightedText, List.map_map]
  have h1 : (tokenizeWs text).map (Prod.fst ∘ renderToken) = tokenizeWs text :=
    (List.map_congr_left fun w _ => renderToken_fst w).trans (List.map_id _)
  rw [h1, tokenizeWs, splitAux_flatten]
  rfl

/-- `currentLikes || 0` is the identity on every supplied number (for `0`
both branches agree). -/
theorem jsOrZero_some (n : Int) : jsOrZero (some n) = n := by
  rw [jsOrZero]
  by_cases h : n = 0 <;> simp [h]

/-- C6: the mirror like writes `currentLikes + 1` — a value computed purely
from the caller-supplied count — into every row whose id matches, leaving the
other rows and fields alone; the previously stored `Like` value is never
consulted. -/
theorem mirror_like_absolute_spec (rows : List MirrorRecord) (id : Nat)
    (n : Int) :
    (supabaseLikeUpdate rows id (some n)).length = rows.length ∧
    (∀ i (h : i < rows.length)
        (h' : i < (supabaseLikeUpdate rows id (some n)).length),
        (supabaseLikeUpdate rows id (some n)).get ⟨i, h'⟩ =
          if (rows.get ⟨i, h⟩).id = id then
            { rows.get ⟨i, h⟩ with Like := n + 1 }
          else rows.get ⟨i, h⟩) := by
  constructor
  · simp [supabaseLikeUpdate]
  · intro i h h'
    simp [supabaseLikeUpdate, jsOrZero_some, List.get_eq_getElem]

/-- Closed instance of `mirror_like_absolute_spec`: with a stored count of 7
and a supplied count of 41, the record ends at 42 (= 41 + 1, the stored 7 is
ignored), and the non-matching record is untouched. -/
theorem mirror_like_absolute_spec_witness :
    (supabaseLikeUpdate [⟨1, "meet me", 7⟩, ⟨2, "hello", 0⟩] 1 (some 41)).get
        ⟨0, by decide⟩ = ⟨1, "meet me", 42⟩ ∧
    (supabaseLikeUpdate [⟨1, "meet me", 7⟩, ⟨2, "hello", 0⟩] 1 (some 41)).get
        ⟨1, by decide⟩ = ⟨2, "hello", 0⟩ := by
  refine ⟨?_, ?_⟩
  · have h := (mirror_like_absolute_spec [⟨1, "meet me", 7⟩, ⟨2, "hello", 0⟩]
      1 41).2 0 (by decide) (by decide)
    simpa using h
  · have h := (mirror_like_absolute_spec [⟨1, "meet me", 7⟩, ⟨2, "hello", 0⟩]
      1 41).2 1 (by decide) (by decide)
    simpa using h

/-- C7: the mirror list endpoint answers 503 when a credential is absent,
400 carrying the upstream error message together with a (nonempty) hint when
the upstream reports an error, and otherwise 200 with the record array. -/
theorem mirror_list_status_spec (env : SupabaseEnv) (upstream : UpstreamSelect) :
    ((env.url = none ∨ env.key = none) →
        getSupabaseMessages env upstream =
          .unavailable "Supabase credentials missing in Secrets tab") ∧
    (supabaseConfigured env = true →
        (∀ msg, upstream.error = some msg →
            getSupabaseMessages env upstream =
              .badRequest msg
                "Check if table \"Confession\" exists with columns \"Confession\" and \"Like\"") ∧
        (upstream.error = none →
            getSupabaseMessages env upstream = .ok (upstream.data.getD []))) := by
  constructor
  · rintro (h | h) <;>
      simp [getSupabaseMessages, supabaseConfigured, h, jsTruthyStr]
  · intro hcfg
    constructor
    · intro msg hmsg
      simp [getSupabaseMessages, hcfg, hmsg]
    · intro hnone
      simp [getSupabaseMessages, hcfg, hnone]

/-- Closed instance of `mirror_list_status_spec`: a missing URL yields 503; a
configured client surfaces an upstream error as 400 with message and hint,
and a clean upstream read as 200 with the records. -/
theorem mirror_list_status_spec_witness :
    getSupabaseMessages ⟨none, some "k"⟩ ⟨none, none⟩ =
      .unavailable "Supabase credentials missing in Secrets tab" ∧
    getSupabaseMessages ⟨some "u", some "k"⟩ ⟨none, some "boom"⟩ =
      .badRequest "boom"
        "Check if table \"Confession\" exists with columns \"Confession\" and \"Like\"" ∧
    getSupabaseMessages ⟨some "u", some "k"⟩ ⟨some [⟨1, "hi", 0⟩], none⟩ =
      .ok [⟨1, "hi", 0⟩] :=
  ⟨(mirror_list_status_spec ⟨none, some "k"⟩ ⟨none, none⟩).1 (Or.inl rfl),
   ((mirror_list_status_spec ⟨some "u", some "k"⟩ ⟨none, some "boom"⟩).2
      (by decide)).1 "boom" rfl,
   ((mirror_list_status_spec ⟨some "u", some "k"⟩
      ⟨some [⟨1, "hi", 0⟩], none⟩).2 (by decide)).2 rfl⟩

/-- `stripLit` succeeds exactly on the strings that start with the literal,
returning the remainder. -/
theorem stripLit_eq_some (lit : List Char) :
    ∀ cs r, stripLit lit cs = some r ↔ cs = lit ++ r := by
  induction lit with
  | nil =>
    intro cs r
    simp [stripLit]
  | cons l ls ih =>
    intro cs r
    cases cs with
    | nil => simp [stripLit]
    | cons c cs' =>
      by_cases h : c = l
      · subst h
        rw [stripLit, if_pos rfl]
        simp [ih]
      · rw [stripLit, if_neg h]
        simp [h]

/-- `stripLit lit` undoes prepending `lit`. -/
theorem stripLit_append (lit r : List Char) : stripLit lit (lit ++ r) = some r :=
  (stripLit_eq_some lit (lit ++ r) r).mpr rfl

/-- Forward characterization of `matchType`: a successful match pins down the
resource type (a member of the alternatives), the shape of the text, and the
captured id (the maximal nonempty alphanumeric run after the slash). -/
theorem matchType_eq_some :
    ∀ (ts : List (List Char)) (rest t i : List Char),
      matchType ts rest = some (t, i) →
      t ∈ ts ∧ ∃ r2, rest = t ++ [ '/' ] ++ r2 ∧
        i = r2.takeWhile alnumChar ∧ i ≠ [] := by
  intro ts
  induction ts with
  | nil =>
    intro rest t i h
    simp [matchType] at h
  | cons t0 ts ih =>
    intro rest t i h
    rw [matchType] at h
    cases hs : stripLit (t0 ++ [ '/' ]) rest with
    | none =>
      rw [hs] at h
      obtain ⟨hmem, r2, hrest, hi, hne⟩ := ih rest t i h
      exact ⟨List.mem_cons_of_mem _ hmem, r2, hrest, hi, hne⟩
    | some rest2 =>
      rw [hs] at h
      have h' : (if (rest2.takeWhile alnumChar).isEmpty then matchType ts rest
          else some (t0, rest2.takeWhile alnumChar)) = some (t, i) := h
      by_cases he : (rest2.takeWhile alnumChar).isEmpty
      · rw [if_pos he] at h'
        obtain ⟨hmem, r2, hrest, hi, hne⟩ := ih rest t i h'
        exact ⟨List.mem_cons_of_mem _ hmem, r2, hrest, hi, hne⟩
      · rw [if_neg he] at h'
        have hpair : t0 = t ∧ rest2.takeWhile alnumChar = i := by
          have := Option.some.inj h'
          exact Prod.mk.inj this
        obtain ⟨rfl, rfl⟩ := hpair
        refine ⟨List.mem_cons_self _ _, rest2,
          (stripLit_eq_some _ _ _).mp hs, rfl, ?_⟩
        simpa [List.isEmpty_iff] using he

/-- Forward characterization of `matchHere`: an anchored match strips the
literal link head and hands the rest to the type alternatives. -/
theorem matchHere_eq_some (cs t i : List Char)
    (h : matchHere cs = some (t, i)) :
    ∃ rest, cs = spotifyLit ++ rest ∧
      matchType resourceTypes rest = some (t, i) := by
  rw [matchHere] at h
  cases hs : stripLit spotifyLit cs with
  | none =>
    rw [hs] at h
    cases h
  | some rest =>
    rw [hs] at h
    exact ⟨rest, (stripLit_eq_some _ _ _).mp hs, h⟩

/-- Forward characterization of the scan: a match found anywhere splits the
text into a prefix and a suffix on which the anchored pattern matches. -/
theorem findSpotify_eq_some :
    ∀ cs t i, findSpotify cs = some (t, i) →
      ∃ pre suf, cs = pre ++ suf ∧ matchHere suf = some (t, i) := by
  intro cs
  induction cs with
  | nil =>
    intro t i h
    simp [findSpotify] at h
  | cons c cs ih =>
    intro t i h
    rw [findSpotify] at h
    cases hm : matchHere (c :: cs) with
    | some r =>
      rw [hm] at h
      exact ⟨[], c :: cs, rfl, by rw [hm]; exact h⟩
    | none =>
      rw [hm] at h
      obtain ⟨pre, suf, hcs, hmh⟩ := ih t i h
      exact ⟨c :: pre, suf, by rw [List.cons_append, hcs], hmh⟩

/-- The scan succeeds on any text with a suffix position where the anchored
pattern matches. -/
theorem findSpotify_isSome (pre : List Char) (suf : List Char)
    (hm : (matchHere suf).isSome) : (findSpotify (pre ++ suf)).isSome := by
  induction pre with
  | nil =>
    cases suf with
    | nil =>
      simp [show matchHere [] = none from rfl] at hm
    | cons c cs' =>
      rw [List.nil_append, findSpotify]
      cases hmh : matchHere (c :: cs') with
      | some r => simp
      | none =>
        rw [hmh] at hm
        simp at hm
  | cons p pre ih =>
    rw [List.cons_append, findSpotify]
    cases hmh : matchHere (p :: (pre ++ suf)) with
    | some r => simp
    | none => simpa using ih

/-- `matchType` on the full alternative list, at a text headed by `track/`. -/
theorem matchType_track (X : List Char) :
    matchType resourceTypes (("track".data ++ [ '/' ]) ++ X) =
      if (X.takeWhile alnumChar).isEmpty then
        matchType ["album".data, "playlist".data]
          (("track".data ++ [ '/' ]) ++ X)
      else some ("track".data, X.takeWhile alnumChar) := rfl

/-- `matchType` on the full alternative list, at a text headed by `album/`
(the `track/` alternative fails on the first character). -/
theorem matchType_album (X : List Char) :
    matchType resourceTypes (("album".data ++ [ '/' ]) ++ X) =
      if (X.takeWhile alnumChar).isEmpty then
        matchType ["playlist".data] (("album".data ++ [ '/' ]) ++ X)
      else some ("album".data, X.takeWhile alnumChar) := rfl

/-- `matchType` on the full alternative list, at a text headed by
`playlist/` (the other two alternatives fail on the first character). -/
theorem matchType_playlist (X : List Char) :
    matchType resourceTypes (("playlist".data ++ [ '/' ]) ++ X) =
      if (X.takeWhile alnumChar).isEmpty then none
      else some ("playlist".data, X.takeWhile alnumChar) := rfl

/-- The anchored pattern matches on any text built from the literal head, a
resource type, a slash, and a leading alphanumeric character. -/
theorem matchHere_isSome (t : List Char) (c : Char) (rest post : List Char)
    (ht : t ∈ resourceTypes) (hc : alnumChar c = true) :
    (matchHere (spotifyLit ++ ((t ++ [ '/' ]) ++ (c :: (rest ++ post))))).isSome := by
  have hm : matchHere (spotifyLit ++ ((t ++ [ '/' ]) ++ (c :: (rest ++ post)))) =
      matchType resourceTypes ((t ++ [ '/' ]) ++ (c :: (rest ++ post))) := by
    rw [matchHere, stripLit_append]
  rw [hm]
  have htw : ((c :: (rest ++ post)).takeWhile alnumChar).isEmpty = false := by
    simp [List.takeWhile_cons, hc]
  have ht' : t = "track".data ∨ t = "album".data ∨ t = "playlist".data := by
    simpa [resourceTypes] using ht
  rcases ht' with rfl | rfl | rfl
  · rw [matchType_track, htw]
    simp
  · rw [matchType_album, htw]
    simp
  · rw [matchType_playlist, htw]
    simp

/-- C8: the song renderer selects the embedded player exactly on the strings
containing the external link pattern for a track, album or playlist
resource, and the search link on everything else; in particular the example
URL is embeddable and the plain song title is a search link. -/
theorem song_classifier_spec :
    renderSong "https://open.spotify.com/track/abc123" =
      .embed "track" "abc123" ∧
    renderSong "Perfect by Ed Sheeran" = .searchLink ∧
    ∀ song : String,
      (∃ t i, renderSong song = .embed t i) ↔ containsSpotifyLink song.data := by
  refine ⟨by decide, by decide, ?_⟩
  intro song
  constructor
  · rintro ⟨tS, iS, h⟩
    cases hf : findSpotify song.data with
    | none =>
      rw [renderSong, hf] at h
      cases h
    | some r =>
      obtain ⟨t, i⟩ := r
      obtain ⟨pre, suf, hcs, hmh⟩ := findSpotify_eq_some _ _ _ hf
      obtain ⟨rest, hsuf, hmt⟩ := matchHere_eq_some _ _ _ hmh
      obtain ⟨hmem, r2, hrest, hi, hne⟩ :=
        matchType_eq_some resourceTypes rest t i hmt
      refine ⟨pre, t, i, r2.dropWhile alnumChar, ?_, hmem, hne, ?_⟩
      · rw [hcs, hsuf, hrest, hi]
        simp [List.append_assoc, List.takeWhile_append_dropWhile]
      · intro ch hch
        exact List.mem_takeWhile_imp (hi ▸ hch)
  · rintro ⟨pre, t, idr, post, hcs, hmem, hne, hal⟩
    obtain ⟨c, idr', rfl⟩ : ∃ c idr2, idr = c :: idr2 := by
      cases idr with
      | nil => exact absurd rfl hne
      | cons a b => exact ⟨a, b, rfl⟩
    have hiso := matchHere_isSome t c idr' post hmem (hal c (by simp))
    have h2 : (findSpotify song.data).isSome := by
      have hshape : song.data =
          pre ++ (spotifyLit ++ ((t ++ [ '/' ]) ++ (c :: (idr' ++ post)))) := by
        rw [hcs]
        simp [List.append_assoc]
      rw [hshape]
      exact findSpotify_isSome pre _ hiso
    cases hf : findSpotify song.data with
    | none =>
      rw [hf] at h2
      simp at h2
    | some r =>
      obtain ⟨tS, iS⟩ := r
      exact ⟨tS.asString, iS.asString, by rw [renderSong, hf]⟩
